import Mathlib

/-!
Verification of the subtitle-to-speech timeline engine in src/bot.py.

The engine is embedded shallowly: audio segments are modelled by their
duration in milliseconds, the external synthesis service and the waveform
speedup routine are oracle parameters, and Python float arithmetic is
modelled by exact rationals.  The timeline state records the list of
appended segment lengths, the trace of synthesis requests, and the cursor.
-/

namespace Bot

/-- One subtitle cue: start and end timestamps in milliseconds plus the raw text. -/
structure Cue where
  startMs : Nat
  endMs : Nat
  text : String
deriving DecidableEq

/-- A parsed SRT timestamp, mirroring the pysrt SubRipTime fields. -/
structure SrtTime where
  hours : Nat
  minutes : Nat
  seconds : Nat
  milliseconds : Nat
deriving DecidableEq

/-- srt_time_to_ms from bot.py. -/
def srt_time_to_ms (t : SrtTime) : Nat :=
  (t.hours * 3600 + t.minutes * 60 + t.seconds) * 1000 + t.milliseconds

/-- One scan of Python str.replace over a character list: replaces
non-overlapping occurrences of pat from left to right.  The fuel argument
bounds recursion by the length of the scanned list (each step consumes at
least one character), keeping the definition structural. -/
def replaceGo (pat rep : List Char) : Nat → List Char → List Char
  | 0, s => s
  | _ + 1, [] => []
  | fuel + 1, c :: cs =>
    if pat.isPrefixOf (c :: cs) && !pat.isEmpty then
      rep ++ replaceGo pat rep fuel ((c :: cs).drop pat.length)
    else
      c :: replaceGo pat rep fuel cs

/-- Total model of the Python str.replace library call. -/
def pyReplace (s pat rep : String) : String :=
  String.mk (replaceGo pat.data rep.data s.data.length s.data)

/-- Total model of the Python str.strip library call. -/
def pyStrip (s : String) : String :=
  String.mk (((s.data.dropWhile Char.isWhitespace).reverse.dropWhile Char.isWhitespace).reverse)

/-- preprocess_text from bot.py: drop the simple HTML tags and bracket
characters, put a line break after Myanmar and Latin sentence terminators,
and strip surrounding whitespace. -/
def preprocess_text (text : String) : String :=
  let clean := pyReplace (pyReplace (pyReplace (pyReplace text "<b>" "") "</b>" "") "<i>" "") "</i>" ""
  let clean2 := pyReplace (pyReplace (pyReplace (pyReplace clean "[" "") "]" "") "(" "") ")" ""
  pyStrip (pyReplace (pyReplace clean2 "။" "။\n") "." ".\n")

/-- chars_per_sec from step 3 of srt_to_audio: character density of the cue
text over its slot; Python float division modelled as exact rationals. -/
def chars_per_sec (char_count : Nat) (slot_duration : Int) : ℚ :=
  (char_count : ℚ) / ((slot_duration : ℚ) / 1000)

/-- The rate_str computed in step 3 of srt_to_audio.  The source assigns
"+0%" and then overrides it by three sequential ifs; the last test to fire
wins, which is this nested conditional. -/
def rate_str_of (char_count : Nat) (slot_duration : Int) : String :=
  if chars_per_sec char_count slot_duration > 25 then "+60%"
  else if chars_per_sec char_count slot_duration > 20 then "+40%"
  else if chars_per_sec char_count slot_duration > 15 then "+20%"
  else "+0%"

/-- The compression ratio computed in fit_audio_to_slot, capped at 2.0. -/
def ratio_capped (current_dur : Nat) (max_duration_ms : Int) : ℚ :=
  if (current_dur : ℚ) / (max_duration_ms : ℚ) > 2 then 2
  else (current_dur : ℚ) / (max_duration_ms : ℚ)

/-- fit_audio_to_slot from bot.py.  The sp oracle is effects.speedup,
returning the compressed duration or none when the library raises; slicing
seg[:m] keeps min(len, m) milliseconds of audio. -/
def fit_audio_to_slot (sp : Nat → ℚ → Option Nat) (audio_len : Nat) (max_duration_ms : Int) : Nat :=
  if (audio_len : Int) ≤ max_duration_ms then audio_len
  else
    match sp audio_len (ratio_capped audio_len max_duration_ms) with
    | some compressed =>
        if (compressed : Int) > max_duration_ms then min compressed max_duration_ms.toNat
        else compressed
    | none => min audio_len max_duration_ms.toNat

/-- RETRY_COUNT from bot.py. -/
def RETRY_COUNT : Nat := 3

/-- A synthesis cache key: (text, voice, rate_str). -/
abbrev TtsKey := String × String × String

/-- The retry loop of generate_tts.  The attempt oracle gives the decoded
audio duration of attempt i, or none when EdgeTTS raises.  When the fuel
(RETRY_COUNT) is exhausted the 500 ms silent fallback is returned and the
cache is left untouched; a success is stored in the cache. -/
def generate_tts_go (attempt : Nat → Option Nat) (key : TtsKey) :
    Nat → Nat → List (TtsKey × Nat) → Nat × List (TtsKey × Nat)
  | _, 0, cache => (500, cache)
  | i, fuel + 1, cache =>
    match attempt i with
    | some audio => (audio, (key, audio) :: cache)
    | none => generate_tts_go attempt key (i + 1) fuel cache

/-- generate_tts from bot.py: cache lookup, then up to RETRY_COUNT attempts,
then the silent 500 ms fallback. -/
def generate_tts (attempt : Nat → Option Nat) (text voice rate_str : String)
    (cache : List (TtsKey × Nat)) : Nat × List (TtsKey × Nat) :=
  match cache.lookup (text, voice, rate_str) with
  | some audio => (audio, cache)
  | none => generate_tts_go attempt (text, voice, rate_str) 0 RETRY_COUNT cache

/-- The state threaded through the srt_to_audio loop: the lengths of the
audio pieces appended to final_audio in order, the trace of synthesis
requests issued, and current_timeline_pos. -/
structure TimelineState where
  segments : List Nat
  requests : List TtsKey
  current_timeline_pos : Nat
deriving DecidableEq

/-- Step 1 of the loop body (Timeline Management): if the cue starts past
the cursor, append silence covering the whole gap and move the cursor to
the cue start. -/
def fill_gap (st : TimelineState) (start_ms : Nat) : TimelineState :=
  if start_ms > st.current_timeline_pos then
    { st with
      segments := st.segments ++ [start_ms - st.current_timeline_pos],
      current_timeline_pos := start_ms }
  else st

/-- Step 2 of the loop body (Calculate Strict Slot): end minus start,
overridden to next start minus start when the next cue starts before this
cue ends. -/
def effective_slot (subs : List Cue) (i : Nat) (sub : Cue) : Int :=
  match subs[i + 1]? with
  | some nxt =>
      if (nxt.startMs : Int) < (sub.endMs : Int) then (nxt.startMs : Int) - (sub.startMs : Int)
      else (sub.endMs : Int) - (sub.startMs : Int)
  | none => (sub.endMs : Int) - (sub.startMs : Int)

/-- The body of the srt_to_audio loop for one cue: skip empty normalized
text, fill the gap, skip non-positive slots, otherwise synthesize at the
density-derived rate, fit the audio to the slot, append it and advance the
cursor by its length.  tts_len gives the duration of the audio returned by
generate_tts for a request. -/
def process_cue (tts_len : String → String → String → Nat) (sp : Nat → ℚ → Option Nat)
    (voice : String) (subs : List Cue) (i : Nat) (sub : Cue) (st : TimelineState) :
    TimelineState :=
  if preprocess_text sub.text = "" then st
  else
    let st1 := fill_gap st sub.startMs
    if effective_slot subs i sub ≤ 0 then st1
    else
      let text := preprocess_text sub.text
      let rate_str := rate_str_of text.length (effective_slot subs i sub)
      let fitted_audio := fit_audio_to_slot sp (tts_len text voice rate_str) (effective_slot subs i sub)
      { segments := st1.segments ++ [fitted_audio],
        requests := st1.requests ++ [(text, voice, rate_str)],
        current_timeline_pos := st1.current_timeline_pos + fitted_audio }

/-- One iteration of the srt_to_audio loop, indexed as by enumerate(subs). -/
def srt_to_audio_step (tts_len : String → String → String → Nat) (sp : Nat → ℚ → Option Nat)
    (voice : String) (subs : List Cue) (i : Nat) (st : TimelineState) : TimelineState :=
  match subs[i]? with
  | none => st
  | some sub => process_cue tts_len sp voice subs i sub st

/-- The initial loop state: final_audio = AudioSegment.silent(0) and
current_timeline_pos = 0. -/
def initState : TimelineState :=
  { segments := [], requests := [], current_timeline_pos := 0 }

/-- srt_to_audio from bot.py, processing every cue in order. -/
def srt_to_audio (tts_len : String → String → String → Nat) (sp : Nat → ℚ → Option Nat)
    (voice : String) (subs : List Cue) : TimelineState :=
  (List.range subs.length).foldl
    (fun st i => srt_to_audio_step tts_len sp voice subs i st) initState

/-- The duration of the exported file: the length of final_audio, which is
the sum of all appended pieces. -/
def exported_duration (st : TimelineState) : Nat :=
  st.segments.sum

/-- Modelled from the spec: the duration estimator of section 4.3,
estimate(text) = max(minSeconds, charCount / charsPerSecond) with
minSeconds = 0.4 and charsPerSecond = 14.  No such estimator exists in
bot.py; this definition follows the words of the spec for comparison. -/
def spec_estimate (charCount : Nat) : ℚ :=
  max (2 / 5) ((charCount : ℚ) / 14)

/-- Modelled from the spec: the speed-up-fit rate of section 4.4,
ratePercent = min((est/slotSec - 1)*100, (maxSpeedFactor - 1)*100) with
maxSpeedFactor = 1.5.  No such formula exists in bot.py; this definition
follows the words of the spec for comparison. -/
def spec_ratePercent (est slotSec : ℚ) : ℚ :=
  min ((est / slotSec - 1) * 100) ((3 / 2 - 1) * 100)

/-- A concrete synthesis oracle for witnesses: every request yields a
300 ms segment. -/
def tts300 : String → String → String → Nat := fun _ _ _ => 300

/-- A concrete speedup oracle for witnesses: compression always raises. -/
def spNone : Nat → ℚ → Option Nat := fun _ _ => none

/-- A concrete attempt oracle for witnesses: EdgeTTS always raises. -/
def attemptNone : Nat → Option Nat := fun _ => none

/-! ### Helper lemmas about the assembler state -/

lemma fill_gap_requests (st : TimelineState) (s : Nat) :
    (fill_gap st s).requests = st.requests := by
  unfold fill_gap
  split <;> rfl

lemma fill_gap_pos_mono (st : TimelineState) (s : Nat) :
    st.current_timeline_pos ≤ (fill_gap st s).current_timeline_pos := by
  unfold fill_gap
  split_ifs with h
  · exact Nat.le_of_lt h
  · exact le_refl _

lemma le_fill_gap_pos (st : TimelineState) (s : Nat) :
    s ≤ (fill_gap st s).current_timeline_pos := by
  unfold fill_gap
  split_ifs with h
  · exact le_refl s
  · omega

lemma fill_gap_pos_eq_sum (st : TimelineState) (s : Nat)
    (h : st.current_timeline_pos = st.segments.sum) :
    (fill_gap st s).current_timeline_pos = (fill_gap st s).segments.sum := by
  unfold fill_gap
  split_ifs with hgt
  · simp only [List.sum_append, List.sum_cons, List.sum_nil]
    omega
  · exact h

lemma fill_gap_pos_le_sum (st : TimelineState) (s : Nat)
    (h : st.current_timeline_pos ≤ st.segments.sum) :
    (fill_gap st s).current_timeline_pos ≤ (fill_gap st s).segments.sum := by
  unfold fill_gap
  split_ifs with hgt
  · simp only [List.sum_append, List.sum_cons, List.sum_nil]
    omega
  · exact h

lemma process_cue_pos_eq_sum (tts : String → String → String → Nat) (sp : Nat → ℚ → Option Nat)
    (voice : String) (subs : List Cue) (i : Nat) (sub : Cue) (st : TimelineState)
    (h : st.current_timeline_pos = st.segments.sum) :
    (process_cue tts sp voice subs i sub st).current_timeline_pos
      = (process_cue tts sp voice subs i sub st).segments.sum := by
  simp only [process_cue]
  split_ifs with h1 h2
  · exact h
  · exact fill_gap_pos_eq_sum st sub.startMs h
  · have hg := fill_gap_pos_eq_sum st sub.startMs h
    simp only [List.sum_append, List.sum_cons, List.sum_nil]
    omega

lemma process_cue_pos_le_sum (tts : String → String → String → Nat) (sp : Nat → ℚ → Option Nat)
    (voice : String) (subs : List Cue) (i : Nat) (sub : Cue) (st : TimelineState)
    (h : st.current_timeline_pos ≤ st.segments.sum) :
    (process_cue tts sp voice subs i sub st).current_timeline_pos
      ≤ (process_cue tts sp voice subs i sub st).segments.sum := by
  simp only [process_cue]
  split_ifs with h1 h2
  · exact h
  · exact fill_gap_pos_le_sum st sub.startMs h
  · have hg := fill_gap_pos_le_sum st sub.startMs h
    simp only [List.sum_append, List.sum_cons, List.sum_nil]
    omega

lemma process_cue_pos_mono (tts : String → String → String → Nat) (sp : Nat → ℚ → Option Nat)
    (voice : String) (subs : List Cue) (i : Nat) (sub : Cue) (st : TimelineState) :
    st.current_timeline_pos ≤ (process_cue tts sp voice subs i sub st).current_timeline_pos := by
  simp only [process_cue]
  split_ifs with h1 h2
  · exact le_refl _
  · exact fill_gap_pos_mono st sub.startMs
  · have := fill_gap_pos_mono st sub.startMs
    dsimp only
    omega

lemma process_cue_start_le (tts : String → String → String → Nat) (sp : Nat → ℚ → Option Nat)
    (voice : String) (subs : List Cue) (i : Nat) (sub : Cue) (st : TimelineState)
    (htext : preprocess_text sub.text ≠ "") :
    sub.startMs ≤ (process_cue tts sp voice subs i sub st).current_timeline_pos := by
  simp only [process_cue]
  split_ifs with h1 h2
  · exact absurd h1 htext
  · exact le_fill_gap_pos st sub.startMs
  · have := le_fill_gap_pos st sub.startMs
    dsimp only
    omega

lemma process_cue_requests_shape (tts : String → String → String → Nat)
    (sp : Nat → ℚ → Option Nat) (voice : String) (subs : List Cue) (i : Nat) (sub : Cue)
    (st : TimelineState) :
    (process_cue tts sp voice subs i sub st).requests = st.requests ∨
    ∃ r, (process_cue tts sp voice subs i sub st).requests
        = st.requests ++ [(preprocess_text sub.text, voice, r)] := by
  simp only [process_cue]
  split_ifs with h1 h2
  · exact Or.inl rfl
  · exact Or.inl (fill_gap_requests st sub.startMs)
  · refine Or.inr ⟨rate_str_of (preprocess_text sub.text).length (effective_slot subs i sub), ?_⟩
    rw [fill_gap_requests st sub.startMs]

lemma step_eq_of_get {tts : String → String → String → Nat} {sp : Nat → ℚ → Option Nat}
    {voice : String} {subs : List Cue} {i : Nat} {sub : Cue} {st : TimelineState}
    (h : subs[i]? = some sub) :
    srt_to_audio_step tts sp voice subs i st = process_cue tts sp voice subs i sub st := by
  unfold srt_to_audio_step
  rw [h]

lemma step_pos_eq_sum (tts : String → String → String → Nat) (sp : Nat → ℚ → Option Nat)
    (voice : String) (subs : List Cue) (i : Nat) (st : TimelineState)
    (h : st.current_timeline_pos = st.segments.sum) :
    (srt_to_audio_step tts sp voice subs i st).current_timeline_pos
      = (srt_to_audio_step tts sp voice subs i st).segments.sum := by
  unfold srt_to_audio_step
  cases hx : subs[i]? with
  | none => exact h
  | some sub => exact process_cue_pos_eq_sum tts sp voice subs i sub st h

lemma step_pos_le_sum (tts : String → String → String → Nat) (sp : Nat → ℚ → Option Nat)
    (voice : String) (subs : List Cue) (i : Nat) (st : TimelineState)
    (h : st.current_timeline_pos ≤ st.segments.sum) :
    (srt_to_audio_step tts sp voice subs i st).current_timeline_pos
      ≤ (srt_to_audio_step tts sp voice subs i st).segments.sum := by
  unfold srt_to_audio_step
  cases hx : subs[i]? with
  | none => exact h
  | some sub => exact process_cue_pos_le_sum tts sp voice subs i sub st h

lemma step_pos_mono (tts : String → String → String → Nat) (sp : Nat → ℚ → Option Nat)
    (voice : String) (subs : List Cue) (i : Nat) (st : TimelineState) :
    st.current_timeline_pos ≤ (srt_to_audio_step tts sp voice subs i st).current_timeline_pos := by
  unfold srt_to_audio_step
  cases hx : subs[i]? with
  | none => exact le_refl _
  | some sub => exact process_cue_pos_mono tts sp voice subs i sub st

lemma step_start_le (tts : String → String → String → Nat) (sp : Nat → ℚ → Option Nat)
    (voice : String) (subs : List Cue) (i : Nat) (sub : Cue) (st : TimelineState)
    (h : subs[i]? = some sub) (htext : preprocess_text sub.text ≠ "") :
    sub.startMs ≤ (srt_to_audio_step tts sp voice subs i st).current_timeline_pos := by
  rw [step_eq_of_get h]
  exact process_cue_start_le tts sp voice subs i sub st htext

lemma foldl_pos_eq_sum (tts : String → String → String → Nat) (sp : Nat → ℚ → Option Nat)
    (voice : String) (subs : List Cue) (l : List Nat) :
    ∀ st : TimelineState, st.current_timeline_pos = st.segments.sum →
      (l.foldl (fun s i => srt_to_audio_step tts sp voice subs i s) st).current_timeline_pos
        = (l.foldl (fun s i => srt_to_audio_step tts sp voice subs i s) st).segments.sum := by
  induction l with
  | nil => exact fun st h => h
  | cons a l ih =>
      intro st h
      exact ih _ (step_pos_eq_sum tts sp voice subs a st h)

lemma foldl_pos_le_sum (tts : String → String → String → Nat) (sp : Nat → ℚ → Option Nat)
    (voice : String) (subs : List Cue) (l : List Nat) :
    ∀ st : TimelineState, st.current_timeline_pos ≤ st.segments.sum →
      (l.foldl (fun s i => srt_to_audio_step tts sp voice subs i s) st).current_timeline_pos
        ≤ (l.foldl (fun s i => srt_to_audio_step tts sp voice subs i s) st).segments.sum := by
  induction l with
  | nil => exact fun st h => h
  | cons a l ih =>
      intro st h
      exact ih _ (step_pos_le_sum tts sp voice subs a st h)

/-! ### Helper lemmas bridging the rational comparisons to integers -/

lemma cps_gt_iff_aux (n : Nat) (slot : Int) (h : 0 < slot) (q : ℚ) (z : Int)
    (hqz : (z : ℚ) = q) :
    (chars_per_sec n slot > q) ↔ (z * slot < (n : Int) * 1000) := by
  unfold chars_per_sec
  have hs0 : (0 : ℚ) < (slot : ℚ) := by exact_mod_cast h
  have hs : (0 : ℚ) < (slot : ℚ) / 1000 := by positivity
  rw [gt_iff_lt, ← hqz, lt_div_iff₀ hs,
    show (z : ℚ) * ((slot : ℚ) / 1000) = ((z : ℚ) * (slot : ℚ)) / 1000 by ring,
    div_lt_iff₀ (by norm_num : (0 : ℚ) < 1000)]
  constructor <;> intro hx <;> exact_mod_cast hx

lemma rate_str_of_eval (n : Nat) (slot : Int) (h : 0 < slot) :
    rate_str_of n slot =
      if 25 * slot < (n : Int) * 1000 then "+60%"
      else if 20 * slot < (n : Int) * 1000 then "+40%"
      else if 15 * slot < (n : Int) * 1000 then "+20%"
      else "+0%" := by
  unfold rate_str_of
  rw [if_congr (cps_gt_iff_aux n slot h 25 25 (by norm_num)) rfl
      (if_congr (cps_gt_iff_aux n slot h 20 20 (by norm_num)) rfl
        (if_congr (cps_gt_iff_aux n slot h 15 15 (by norm_num)) rfl rfl))]

lemma rate_zero_of_estimate_eq (n : Nat) (slot : Int) (h : 0 < slot)
    (hest : spec_estimate n = (slot : ℚ) / 1000) : rate_str_of n slot = "+0%" := by
  have hs0 : (0 : ℚ) < (slot : ℚ) := by exact_mod_cast h
  have hs : (0 : ℚ) < (slot : ℚ) / 1000 := by positivity
  have h14 : (n : ℚ) / 14 ≤ (slot : ℚ) / 1000 := by
    rw [← hest]
    exact le_max_right _ _
  have hn : (n : ℚ) ≤ 14 * ((slot : ℚ) / 1000) := by
    have := (div_le_iff₀ (by norm_num : (0 : ℚ) < 14)).mp h14
    linarith
  have hcps : chars_per_sec n slot ≤ 15 := by
    unfold chars_per_sec
    rw [div_le_iff₀ hs]
    linarith
  unfold rate_str_of
  split_ifs with h1 h2 h3
  · exact absurd h1 (by rw [gt_iff_lt, not_lt]; linarith)
  · exact absurd h2 (by rw [gt_iff_lt, not_lt]; linarith)
  · exact absurd h3 (by rw [gt_iff_lt, not_lt]; linarith)
  · rfl

/-! ### Helper lemmas for the retrying synthesizer -/

lemma generate_tts_go_all_fail (attempt : Nat → Option Nat) (key : TtsKey)
    (cache : List (TtsKey × Nat)) :
    ∀ fuel i, (∀ j, j < fuel → attempt (i + j) = none) →
      generate_tts_go attempt key i fuel cache = (500, cache) := by
  intro fuel
  induction fuel with
  | zero => exact fun i _ => rfl
  | succ f ih =>
      intro i h
      have h0 : attempt i = none := by simpa using h 0 (Nat.succ_pos f)
      simp only [generate_tts_go, h0]
      refine ih (i + 1) (fun j hj => ?_)
      rw [show i + 1 + j = i + (j + 1) by omega]
      exact h (j + 1) (by omega)

lemma c8_est : spec_estimate (preprocess_text "aaaaaaaaaaaaaa").length
    = ((effective_slot [⟨0, 1000, "aaaaaaaaaaaaaa"⟩] 0 ⟨0, 1000, "aaaaaaaaaaaaaa"⟩ : Int) : ℚ) / 1000 := by
  have h1 : (preprocess_text "aaaaaaaaaaaaaa").length = 14 := by decide
  have h2 : effective_slot [⟨0, 1000, "aaaaaaaaaaaaaa"⟩] 0 ⟨0, 1000, "aaaaaaaaaaaaaa"⟩ = 1000 := by
    decide
  rw [h1, h2]
  unfold spec_estimate
  rw [show ((14 : Nat) : ℚ) = 14 by norm_num]
  rw [max_eq_right (by norm_num : (2 : ℚ) / 5 ≤ 14 / 14)]
  norm_num

/-! ### The claims -/

/-- C1 (counterexample): a single cue from 0 ms to 1000 ms whose synthesized
speech lasts only 300 ms is exported with a total duration of 300 ms, which
is below the last cue end time of 1000 ms: srt_to_audio never pads the
buffer out to the final cue end. -/
theorem claim_C1_counterexample :
    exported_duration (srt_to_audio tts300 spNone "v" [⟨0, 1000, "Hi"⟩]) < 1000 ∧
    ([(⟨0, 1000, "Hi"⟩ : Cue)].getLast? = some ⟨0, 1000, "Hi"⟩) := by
  decide

/-- C1 (amended): for every non-empty cue list whose last cue has non-empty
normalized text, the duration of the exported audio buffer is at least the
last cue START time; it can be shorter than the last cue end time when the
fitted audio is shorter than its slot, because no padding is appended. -/
theorem claim_C1 (tts : String → String → String → Nat) (sp : Nat → ℚ → Option Nat)
    (voice : String) (subs : List Cue) (sub : Cue)
    (hlast : subs.getLast? = some sub) (htext : preprocess_text sub.text ≠ "") :
    sub.startMs ≤ exported_duration (srt_to_audio tts sp voice subs) := by
  have hne : subs ≠ [] := by
    intro hnil
    rw [hnil] at hlast
    exact Option.noConfusion hlast
  have hpos : 0 < subs.length := List.length_pos.mpr hne
  obtain ⟨n, hn⟩ : ∃ n, subs.length = n + 1 := ⟨subs.length - 1, by omega⟩
  have hidx : subs[n]? = some sub := by
    rw [List.getLast?_eq_getElem?, show subs.length - 1 = n by omega] at hlast
    exact hlast
  unfold srt_to_audio exported_duration
  rw [hn, List.range_succ, List.foldl_append, List.foldl_cons, List.foldl_nil]
  set prev := (List.range n).foldl (fun s i => srt_to_audio_step tts sp voice subs i s) initState
    with hprev
  have hsum : (srt_to_audio_step tts sp voice subs n prev).current_timeline_pos
      = (srt_to_audio_step tts sp voice subs n prev).segments.sum :=
    step_pos_eq_sum tts sp voice subs n prev
      (foldl_pos_eq_sum tts sp voice subs (List.range n) initState rfl)
  rw [← hsum]
  exact step_start_le tts sp voice subs n sub prev hidx htext

/-- Witness for C1 at a concrete input: one cue starting at 2000 ms. -/
theorem claim_C1_witness :
    2000 ≤ exported_duration (srt_to_audio tts300 spNone "v" [⟨2000, 3000, "Ok"⟩]) :=
  claim_C1 tts300 spNone "v" [⟨2000, 3000, "Ok"⟩] ⟨2000, 3000, "Ok"⟩ (by decide) (by decide)

/-- C2 (counterexample): cue A (slot 1000 ms, 30 characters, estimate about
2.14 s, beyond 1.5 x its slot) followed 200 ms later by cue B satisfies the
merge preconditions of the claim, yet srt_to_audio issues two separate
synthesis requests, one per cue, and never requests the space-joined
concatenation: no merge logic exists in the code. -/
theorem claim_C2_counterexample :
    spec_estimate 30 > (1000 : ℚ) / 1000 * (3 / 2) ∧
    ((1200 : Int) - 1000 ≤ 500) ∧
    ((srt_to_audio tts300 spNone "v"
        [⟨0, 1000, "aaaaaaaaaaaaaaaaaaaaaaaaaaaaaa"⟩, ⟨1200, 2000, "bbbb"⟩]).requests.map
          (fun r => r.1))
      = ["aaaaaaaaaaaaaaaaaaaaaaaaaaaaaa", "bbbb"] ∧
    "aaaaaaaaaaaaaaaaaaaaaaaaaaaaaa bbbb" ∉
      ((srt_to_audio tts300 spNone "v"
        [⟨0, 1000, "aaaaaaaaaaaaaaaaaaaaaaaaaaaaaa"⟩, ⟨1200, 2000, "bbbb"⟩]).requests.map
          (fun r => r.1)) := by
  refine ⟨?_, by decide, by decide, by decide⟩
  unfold spec_estimate
  rw [show ((30 : Nat) : ℚ) = 30 by norm_num]
  rw [max_eq_right (by norm_num : (2 : ℚ) / 5 ≤ 30 / 14)]
  norm_num

/-- C2 (amended): the planner never merges cues: every synthesis request
issued while processing a cue carries exactly that single cue normalized
text, never a concatenation with the next cue text, regardless of estimate
and gap. -/
theorem claim_C2 (tts : String → String → String → Nat) (sp : Nat → ℚ → Option Nat)
    (voice : String) (subs : List Cue) (i : Nat) (sub : Cue) (st : TimelineState)
    (h : subs[i]? = some sub) :
    (srt_to_audio_step tts sp voice subs i st).requests = st.requests ∨
    ∃ r, (srt_to_audio_step tts sp voice subs i st).requests
        = st.requests ++ [(preprocess_text sub.text, voice, r)] := by
  rw [step_eq_of_get h]
  exact process_cue_requests_shape tts sp voice subs i sub st

/-- Witness for C2 at a concrete input. -/
theorem claim_C2_witness :
    (srt_to_audio_step tts300 spNone "v" [⟨0, 1000, "Hey"⟩] 0 initState).requests
        = initState.requests ∨
    ∃ r, (srt_to_audio_step tts300 spNone "v" [⟨0, 1000, "Hey"⟩] 0 initState).requests
        = initState.requests ++ [(preprocess_text "Hey", "v", r)] :=
  claim_C2 tts300 spNone "v" [⟨0, 1000, "Hey"⟩] 0 ⟨0, 1000, "Hey"⟩ initState (by decide)

/-- C3 (counterexample): a 30-character cue in a 1000 ms slot is requested
at rate "+60%", above the +50% cap the claim states; the spec formula
min((est/slotSec - 1)*100, 50) would give +50% here. -/
theorem claim_C3_counterexample :
    (srt_to_audio tts300 spNone "v" [⟨0, 1000, "cccccccccccccccccccccccccccccc"⟩]).requests
      = [("cccccccccccccccccccccccccccccc", "v", "+60%")] ∧
    spec_ratePercent (spec_estimate 30) ((1000 : ℚ) / 1000) = 50 ∧
    ("+60%" : String) ≠ "+50%" := by
  refine ⟨?_, ?_, by decide⟩
  · have e : (srt_to_audio tts300 spNone "v" [⟨0, 1000, "cccccccccccccccccccccccccccccc"⟩]).requests
        = [("cccccccccccccccccccccccccccccc", "v", rate_str_of 30 1000)] := rfl
    have h60 : rate_str_of 30 1000 = "+60%" := by
      rw [rate_str_of_eval 30 1000 (by norm_num)]
      decide
    rw [e, h60]
  · unfold spec_ratePercent spec_estimate
    rw [show ((30 : Nat) : ℚ) = 30 by norm_num]
    rw [max_eq_right (by norm_num : (2 : ℚ) / 5 ≤ 30 / 14)]
    rw [min_eq_right
      (by norm_num : ((3 : ℚ) / 2 - 1) * 100 ≤ (30 / 14 / ((1000 : ℚ) / 1000) - 1) * 100)]
    norm_num

/-- C3 (amended): the rate sent to the synthesis service is one of +0%,
+20%, +40%, +60%, selected purely by character-density thresholds
(chars/sec above 25, 20, 15), so it can reach +60%, exceeding the +50%
range of the claim; it is not the formula min((est/slotSec - 1)*100, 50). -/
theorem claim_C3 (n : Nat) (slot : Int) :
    (rate_str_of n slot = "+60%" ↔ 25 < chars_per_sec n slot) ∧
    (rate_str_of n slot = "+40%" ↔ (20 < chars_per_sec n slot ∧ chars_per_sec n slot ≤ 25)) ∧
    (rate_str_of n slot = "+20%" ↔ (15 < chars_per_sec n slot ∧ chars_per_sec n slot ≤ 20)) ∧
    (rate_str_of n slot = "+0%" ↔ chars_per_sec n slot ≤ 15) := by
  unfold rate_str_of
  split_ifs with h1 h2 h3
  · exact ⟨iff_of_true rfl h1,
      iff_of_false (by decide) (fun hc => absurd h1 (not_lt.mpr hc.2)),
      iff_of_false (by decide) (fun hc => absurd h1 (not_lt.mpr (le_trans hc.2 (by norm_num)))),
      iff_of_false (by decide) (fun hc => absurd h1 (not_lt.mpr (le_trans hc (by norm_num))))⟩
  · exact ⟨iff_of_false (by decide) h1,
      iff_of_true rfl ⟨h2, not_lt.mp h1⟩,
      iff_of_false (by decide) (fun hc => absurd h2 (not_lt.mpr hc.2)),
      iff_of_false (by decide) (fun hc => absurd h2 (not_lt.mpr (le_trans hc (by norm_num))))⟩
  · exact ⟨iff_of_false (by decide) h1,
      iff_of_false (by decide) (fun hc => h2 hc.1),
      iff_of_true rfl ⟨h3, not_lt.mp h2⟩,
      iff_of_false (by decide) (fun hc => absurd h3 (not_lt.mpr hc))⟩
  · exact ⟨iff_of_false (by decide) h1,
      iff_of_false (by decide) (fun hc => h2 hc.1),
      iff_of_false (by decide) (fun hc => h3 hc.1),
      iff_of_true rfl (not_lt.mp h3)⟩

/-- C4: the timeline cursor never decreases across a loop iteration, and it
never exceeds the sum of the lengths of all appended silence and speech
segments; both hold at every iteration and for the whole run. -/
theorem claim_C4 :
    (∀ (tts : String → String → String → Nat) (sp : Nat → ℚ → Option Nat) (voice : String)
        (subs : List Cue) (i : Nat) (st : TimelineState),
      st.current_timeline_pos ≤ st.segments.sum →
      st.current_timeline_pos ≤ (srt_to_audio_step tts sp voice subs i st).current_timeline_pos ∧
      (srt_to_audio_step tts sp voice subs i st).current_timeline_pos
        ≤ (srt_to_audio_step tts sp voice subs i st).segments.sum) ∧
    (∀ (tts : String → String → String → Nat) (sp : Nat → ℚ → Option Nat) (voice : String)
        (subs : List Cue),
      (srt_to_audio tts sp voice subs).current_timeline_pos
        ≤ (srt_to_audio tts sp voice subs).segments.sum) :=
  ⟨fun tts sp voice subs i st h =>
      ⟨step_pos_mono tts sp voice subs i st, step_pos_le_sum tts sp voice subs i st h⟩,
    fun tts sp voice subs =>
      foldl_pos_le_sum tts sp voice subs (List.range subs.length) initState (le_refl 0)⟩

/-- Witness for C4 at a concrete state and cue. -/
theorem claim_C4_witness :
    9 ≤ (srt_to_audio_step tts300 spNone "v" [⟨0, 900, "Hm"⟩] 0 ⟨[9], [], 9⟩).current_timeline_pos ∧
    (srt_to_audio_step tts300 spNone "v" [⟨0, 900, "Hm"⟩] 0 ⟨[9], [], 9⟩).current_timeline_pos
      ≤ (srt_to_audio_step tts300 spNone "v" [⟨0, 900, "Hm"⟩] 0 ⟨[9], [], 9⟩).segments.sum :=
  claim_C4.1 tts300 spNone "v" [⟨0, 900, "Hm"⟩] 0 ⟨[9], [], 9⟩ (by decide)

/-- C5 (counterexample): a cue starting at 5000 ms with the cursor at 0
gets a 5000 ms silence appended, not the 800 ms breathing-cap value
min(gap, 800) the claim states: the gap fill is uncapped. -/
theorem claim_C5_counterexample :
    (srt_to_audio tts300 spNone "v" [⟨5000, 6000, "Hi"⟩]).segments = [5000, 300] ∧
    (5000 : Nat) ≠ min 5000 800 := by
  decide

/-- C5 (amended): for every cue with non-empty normalized text whose start
exceeds the cursor, the assembler appends silence of the FULL gap length
cue.start - cursor; no breathing cap is applied, however large the gap. -/
theorem claim_C5 (tts : String → String → String → Nat) (sp : Nat → ℚ → Option Nat)
    (voice : String) (subs : List Cue) (i : Nat) (sub : Cue) (st : TimelineState)
    (h : subs[i]? = some sub) (htext : preprocess_text sub.text ≠ "")
    (hgap : st.current_timeline_pos < sub.startMs) :
    ∃ rest, (srt_to_audio_step tts sp voice subs i st).segments
        = st.segments ++ (sub.startMs - st.current_timeline_pos) :: rest := by
  rw [step_eq_of_get h]
  have hfg : (fill_gap st sub.startMs).segments
      = st.segments ++ [sub.startMs - st.current_timeline_pos] := by
    unfold fill_gap
    rw [if_pos hgap]
  simp only [process_cue]
  split_ifs with h1 h2
  · exact absurd h1 htext
  · exact ⟨[], by rw [hfg]⟩
  · refine ⟨[fit_audio_to_slot sp
      (tts (preprocess_text sub.text) voice
        (rate_str_of (preprocess_text sub.text).length (effective_slot subs i sub)))
      (effective_slot subs i sub)], ?_⟩
    dsimp only
    rw [hfg]
    simp

/-- Witness for C5 at a concrete input: cursor 0, cue start 5000 ms. -/
theorem claim_C5_witness :
    ∃ rest, (srt_to_audio_step tts300 spNone "v" [⟨5000, 6000, "Yo"⟩] 0 initState).segments
        = 5000 :: rest :=
  claim_C5 tts300 spNone "v" [⟨5000, 6000, "Yo"⟩] 0 ⟨5000, 6000, "Yo"⟩ initState
    (by decide) (by decide) (by decide)

/-- C6: when the cache misses and the synthesis service fails on all
RETRY_COUNT = 3 attempts, generate_tts returns the fixed 500 ms silent
segment (and leaves the cache unchanged) instead of raising, so the job
continues under the fail-soft policy. -/
theorem claim_C6 (attempt : Nat → Option Nat) (text voice rate_str : String)
    (cache : List (TtsKey × Nat))
    (hmiss : cache.lookup (text, voice, rate_str) = none)
    (hfail : ∀ i, i < RETRY_COUNT → attempt i = none) :
    generate_tts attempt text voice rate_str cache = (500, cache) := by
  unfold generate_tts
  rw [hmiss]
  exact generate_tts_go_all_fail attempt (text, voice, rate_str) cache RETRY_COUNT 0
    (fun j hj => by simpa using hfail j hj)

/-- Witness for C6: a synthesis oracle that always fails. -/
theorem claim_C6_witness :
    generate_tts attemptNone "a" "v" "+0%" [] = (500, []) :=
  claim_C6 attemptNone "a" "v" "+0%" [] (by decide) (fun i _ => rfl)

/-- C7: for every positive slot, fit_audio_to_slot returns audio no longer
than the slot; audio that already fits is returned unchanged; the
compression ratio passed to the speedup routine is capped at 2.0; and when
compression raises, the fallback is hard truncation to the slot length. -/
theorem claim_C7 (sp : Nat → ℚ → Option Nat) (audio_len : Nat) (max_duration_ms : Int)
    (hpos : 0 < max_duration_ms) :
    ((fit_audio_to_slot sp audio_len max_duration_ms : Int) ≤ max_duration_ms) ∧
    (((audio_len : Int) ≤ max_duration_ms) →
      fit_audio_to_slot sp audio_len max_duration_ms = audio_len) ∧
    ratio_capped audio_len max_duration_ms ≤ 2 ∧
    ((max_duration_ms < (audio_len : Int)) →
      sp audio_len (ratio_capped audio_len max_duration_ms) = none →
      fit_audio_to_slot sp audio_len max_duration_ms = min audio_len max_duration_ms.toNat) := by
  refine ⟨?_, ?_, ?_, ?_⟩
  · unfold fit_audio_to_slot
    split_ifs with h1
    · exact h1
    · cases hsp : sp audio_len (ratio_capped audio_len max_duration_ms) with
      | none =>
          dsimp only
          omega
      | some compressed =>
          dsimp only
          split_ifs with h2
          · omega
          · omega
  · intro h
    unfold fit_audio_to_slot
    rw [if_pos h]
  · unfold ratio_capped
    split_ifs with h
    · exact le_refl 2
    · exact le_of_not_lt h
  · intro hlong hsp
    unfold fit_audio_to_slot
    rw [if_neg (by omega), hsp]

/-- Witness for C7 at a concrete input: 5 ms of audio in a 3 ms slot with a
failing compressor truncates to 3 ms. -/
theorem claim_C7_witness :
    ((fit_audio_to_slot spNone 5 3 : Int) ≤ 3) ∧ fit_audio_to_slot spNone 5 3 = min 5 (3 : Int).toNat :=
  ⟨(claim_C7 spNone 5 3 (by decide)).1,
    (claim_C7 spNone 5 3 (by decide)).2.2.2 (by decide) rfl⟩

/-- C8: a cue whose spec estimate max(0.4, chars/14) exactly equals its
slot in seconds is synthesized with rate "+0%", the natural-fit outcome:
its density is then at most 14 chars/sec, below every speed-up threshold. -/
theorem claim_C8 (tts : String → String → String → Nat) (sp : Nat → ℚ → Option Nat)
    (voice : String) (subs : List Cue) (i : Nat) (sub : Cue) (st : TimelineState)
    (h : subs[i]? = some sub)
    (htext : preprocess_text sub.text ≠ "")
    (hslot : 0 < effective_slot subs i sub)
    (hest : spec_estimate (preprocess_text sub.text).length
        = ((effective_slot subs i sub : Int) : ℚ) / 1000) :
    (srt_to_audio_step tts sp voice subs i st).requests
      = st.requests ++ [(preprocess_text sub.text, voice, "+0%")] := by
  rw [step_eq_of_get h]
  simp only [process_cue]
  rw [if_neg htext, if_neg (by omega : ¬ effective_slot subs i sub ≤ 0)]
  dsimp only
  rw [fill_gap_requests,
    rate_zero_of_estimate_eq (preprocess_text sub.text).length (effective_slot subs i sub)
      hslot hest]

/-- Witness for C8: a 14-character cue in a 1000 ms slot (estimate 1 s). -/
theorem claim_C8_witness :
    (srt_to_audio_step tts300 spNone "v" [⟨0, 1000, "aaaaaaaaaaaaaa"⟩] 0 initState).requests
      = [("aaaaaaaaaaaaaa", "v", "+0%")] :=
  claim_C8 tts300 spNone "v" [⟨0, 1000, "aaaaaaaaaaaaaa"⟩] 0 ⟨0, 1000, "aaaaaaaaaaaaaa"⟩
    initState (by decide) (by decide) (by decide) c8_est

/-- C9: a cue whose effective slot is zero or negative is skipped: the
iteration leaves the state exactly as the gap-filling silence left it (and
fully unchanged when the normalized text is empty), with no synthesis
request and no audio segment. -/
theorem claim_C9 (tts : String → String → String → Nat) (sp : Nat → ℚ → Option Nat)
    (voice : String) (subs : List Cue) (i : Nat) (sub : Cue) (st : TimelineState)
    (h : subs[i]? = some sub) (hslot : effective_slot subs i sub ≤ 0) :
    srt_to_audio_step tts sp voice subs i st
      = if preprocess_text sub.text = "" then st else fill_gap st sub.startMs := by
  rw [step_eq_of_get h]
  simp only [process_cue]
  split_ifs with h1
  · rfl
  · rfl

/-- Witness for C9: a zero-width cue at 1000 ms. -/
theorem claim_C9_witness :
    srt_to_audio_step tts300 spNone "v" [⟨1000, 1000, "Go"⟩] 0 initState
      = if preprocess_text "Go" = "" then initState else fill_gap initState 1000 :=
  claim_C9 tts300 spNone "v" [⟨1000, 1000, "Go"⟩] 0 ⟨1000, 1000, "Go"⟩ initState
    (by decide) (by decide)

/-- C10: the timeline cursor is EXACTLY the length of the accumulated
buffer: every loop iteration preserves cursor = sum of appended segment
lengths, and the exported state satisfies it. -/
theorem claim_C10 :
    (∀ (tts : String → String → String → Nat) (sp : Nat → ℚ → Option Nat) (voice : String)
        (subs : List Cue) (i : Nat) (st : TimelineState),
      st.current_timeline_pos = st.segments.sum →
      (srt_to_audio_step tts sp voice subs i st).current_timeline_pos
        = (srt_to_audio_step tts sp voice subs i st).segments.sum) ∧
    (∀ (tts : String → String → String → Nat) (sp : Nat → ℚ → Option Nat) (voice : String)
        (subs : List Cue),
      (srt_to_audio tts sp voice subs).current_timeline_pos
        = exported_duration (srt_to_audio tts sp voice subs)) :=
  ⟨fun tts sp voice subs i st h => step_pos_eq_sum tts sp voice subs i st h,
    fun tts sp voice subs =>
      foldl_pos_eq_sum tts sp voice subs (List.range subs.length) initState rfl⟩

/-- Witness for C10 at a concrete state and cue. -/
theorem claim_C10_witness :
    (srt_to_audio_step tts300 spNone "v" [⟨0, 1000, "Ha"⟩] 0 ⟨[7], [], 7⟩).current_timeline_pos
      = (srt_to_audio_step tts300 spNone "v" [⟨0, 1000, "Ha"⟩] 0 ⟨[7], [], 7⟩).segments.sum :=
  claim_C10.1 tts300 spNone "v" [⟨0, 1000, "Ha"⟩] 0 ⟨[7], [], 7⟩ (by decide)

end Bot
